import Mathlib

/-!
# Verification of the liboqs-cpp wrapper lifecycle and registry logic

Shallow embedding, in Lean 4, of the handle-lifecycle and algorithm-registry
code of the liboqs C++ wrapper (`src/include/oqs_cpp.hpp`, together with the
older-generation header `src/include/oqs_cpp.h` where its variants differ).

Modelling conventions:
* `oqs::bytes` (a `std::vector` of bytes) is a `List Nat`.
* The native liboqs library is an external collaborator; it is modelled as a
  structure of uninterpreted functions (`KemLib`, `SigLib`).  A native call
  that writes through an out-parameter buffer is modelled by passing the
  buffer contents in and receiving the contents the call leaves behind.
* The function-local `static` variables used for memoization are modelled by
  explicit state passing (`KEMsState`, `SigsState`).
* Calls to the non-elidable scrub primitive `OQS_MEM_cleanse` are recorded in
  an explicit trace: each operation that may scrub returns the list of buffer
  contents it passed to the primitive, in call order.
-/

namespace LibOqsCpp

/-- A byte buffer: `oqs::bytes`, i.e. a vector of bytes. -/
abbrev Bytes := List Nat

/-- Status codes returned by the native liboqs primitives (`OQS_STATUS`). -/
inductive OQS_STATUS where
  | OQS_ERROR
  | OQS_SUCCESS
  | OQS_EXTERNAL_LIB_ERROR_OPENSSL
  deriving DecidableEq

/-- `std::vector::resize n`: truncate to length `n`, or zero-extend when `n`
exceeds the current length. -/
def vectorResize (v : Bytes) (n : Nat) : Bytes :=
  if n ≤ v.length then v.take n else v ++ List.replicate (n - v.length) 0

/-- The read-only metadata fields of a native `C::OQS_KEM` context, consumed
by the wrapper at handle construction. -/
structure OQSKem where
  method_name : String
  alg_version : String
  claimed_nist_level : Nat
  ind_cca : Bool
  length_public_key : Nat
  length_secret_key : Nat
  length_ciphertext : Nat
  length_shared_secret : Nat
  deriving DecidableEq

instance : Inhabited OQSKem := ⟨⟨"", "", 0, false, 0, 0, 0, 0⟩⟩

/-- The read-only metadata fields of a native `C::OQS_SIG` context. -/
structure OQSSig where
  method_name : String
  alg_version : String
  claimed_nist_level : Nat
  euf_cma : Bool
  length_public_key : Nat
  length_secret_key : Nat
  length_signature : Nat
  deriving DecidableEq

instance : Inhabited OQSSig := ⟨⟨"", "", 0, false, 0, 0, 0⟩⟩

/-- Model of the native liboqs KEM API surface consumed by the wrapper.
`kem_new` returning `none` models `OQS_KEM_new` returning a null pointer.
`keypair kem pk sk` receives the initial contents of the caller-allocated
public-key and secret-key buffers and returns the status together with the
contents both buffers hold after the call (on failure the buffers hold
whatever the native code wrote before failing).  `encaps kem ct ss pk` and
`decaps kem ss ct sk` follow the same convention for their out-buffers. -/
structure KemLib where
  alg_table : List String
  alg_is_enabled : String → Bool
  kem_new : String → Option OQSKem
  keypair : OQSKem → Bytes → Bytes → OQS_STATUS × Bytes × Bytes
  encaps : OQSKem → Bytes → Bytes → Bytes → OQS_STATUS × Bytes × Bytes
  decaps : OQSKem → Bytes → Bytes → Bytes → OQS_STATUS × Bytes

/-- Model of the native liboqs signature API surface consumed by the wrapper.
`sign sig buf msg sk` returns the status, the contents of the signature
buffer after the call, and the written length the native code reports through
its out-parameter.  `verify sig msg signature pk` returns the status. -/
structure SigLib where
  alg_table : List String
  alg_is_enabled : String → Bool
  sig_new : String → Option OQSSig
  keypair : OQSSig → Bytes → Bytes → OQS_STATUS × Bytes × Bytes
  sign : OQSSig → Bytes → Bytes → Bytes → OQS_STATUS × Bytes × Nat
  verify : OQSSig → Bytes → Bytes → Bytes → OQS_STATUS

/-- The function-local `static` memoization state of `KEMs::get_supported_KEMs`
and `KEMs::get_enabled_KEMs` (the cached vectors and their already-invoked
flags). -/
structure KEMsState where
  supported_KEMs : List String
  supported_invoked : Bool
  enabled_KEMs : List String
  enabled_invoked : Bool
  deriving DecidableEq

/-- The state of the `static` variables before any call. -/
def initKEMsState : KEMsState := ⟨[], false, [], false⟩

/-- `KEMs::max_number_KEMs`, i.e. `OQS_KEM_alg_count`. -/
def KEMs.max_number_KEMs (lib : KemLib) : Nat := lib.alg_table.length

/-- `KEMs::get_KEM_name`: throws `std::out_of_range` when the id is at least
`max_number_KEMs`, otherwise returns `OQS_KEM_alg_identifier(alg_id)`. -/
def KEMs.get_KEM_name (lib : KemLib) (alg_id : Nat) : Except String String :=
  if alg_id ≥ KEMs.max_number_KEMs lib then .error "Algorithm ID out of range"
  else .ok (lib.alg_table.getD alg_id "")

/-- The sequence of names the population loop of `get_supported_KEMs` appends:
`get_KEM_name i` for `i` in `0 .. max_number_KEMs - 1` (every such call is in
range, so the exceptional branch never fires inside the loop). -/
def KEMs.supportedLoop (lib : KemLib) : List String :=
  (List.range (KEMs.max_number_KEMs lib)).map fun i =>
    ((KEMs.get_KEM_name lib i).toOption.getD "")

/-- `KEMs::get_supported_KEMs`: on first invocation populate the static vector
from the native algorithm table; afterwards return the cached vector. -/
def KEMs.get_supported_KEMs (lib : KemLib) (st : KEMsState) :
    List String × KEMsState :=
  if st.supported_invoked then (st.supported_KEMs, st)
  else
    let l := st.supported_KEMs ++ KEMs.supportedLoop lib
    (l, { st with supported_KEMs := l, supported_invoked := true })

/-- `KEMs::get_enabled_KEMs`: on first invocation filter the supported list
(itself obtained through `get_supported_KEMs`) by `is_KEM_enabled`; afterwards
return the cached vector. -/
def KEMs.get_enabled_KEMs (lib : KemLib) (st : KEMsState) :
    List String × KEMsState :=
  if st.enabled_invoked then (st.enabled_KEMs, st)
  else
    let s := KEMs.get_supported_KEMs lib st
    let l := s.2.enabled_KEMs ++ s.1.filter lib.alg_is_enabled
    (l, { s.2 with enabled_KEMs := l, enabled_invoked := true })

/-- `KEMs::is_KEM_supported`: membership test on the supported list. -/
def KEMs.is_KEM_supported (lib : KemLib) (st : KEMsState) (alg_name : String) :
    Bool × KEMsState :=
  let s := KEMs.get_supported_KEMs lib st
  (s.1.contains alg_name, s.2)

/-- `KEMs::is_KEM_enabled` as in `oqs_cpp.hpp`: delegates to the native
`OQS_KEM_alg_is_enabled`. -/
def KEMs.is_KEM_enabled (lib : KemLib) (alg_name : String) : Bool :=
  lib.alg_is_enabled alg_name

/-- `KEMs::is_KEM_enabled` as in the older header `oqs_cpp.h`: trial
instantiation through `OQS_KEM_new`, freeing the context at once when the
allocation succeeded.  Returns the result together with the list of contexts
passed to `OQS_KEM_free`. -/
def KEMs.is_KEM_enabled_oqs_cpp_h (lib : KemLib) (alg_name : String) :
    Bool × List OQSKem :=
  match lib.kem_new alg_name with
  | some kem => (true, [kem])
  | none => (false, [])

/-- States of the `KEMs` statics reachable by any interleaving of calls. -/
inductive KEMs.Reachable (lib : KemLib) : KEMsState → Prop where
  | init : KEMs.Reachable lib initKEMsState
  | supported {st} : KEMs.Reachable lib st →
      KEMs.Reachable lib (KEMs.get_supported_KEMs lib st).2
  | enabled {st} : KEMs.Reachable lib st →
      KEMs.Reachable lib (KEMs.get_enabled_KEMs lib st).2

/-- The function-local `static` memoization state of `Sigs::get_supported_sigs`
and `Sigs::get_enabled_sigs`. -/
structure SigsState where
  supported_sigs : List String
  supported_invoked : Bool
  enabled_sigs : List String
  enabled_invoked : Bool
  deriving DecidableEq

/-- The state of the `static` variables before any call. -/
def initSigsState : SigsState := ⟨[], false, [], false⟩

/-- `Sigs::max_number_sigs`, i.e. `OQS_SIG_alg_count`. -/
def Sigs.max_number_sigs (lib : SigLib) : Nat := lib.alg_table.length

/-- `Sigs::get_sig_name`. -/
def Sigs.get_sig_name (lib : SigLib) (alg_id : Nat) : Except String String :=
  if alg_id ≥ Sigs.max_number_sigs lib then .error "Algorithm ID out of range"
  else .ok (lib.alg_table.getD alg_id "")

/-- The sequence of names the population loop of `get_supported_sigs`
appends. -/
def Sigs.supportedLoop (lib : SigLib) : List String :=
  (List.range (Sigs.max_number_sigs lib)).map fun i =>
    ((Sigs.get_sig_name lib i).toOption.getD "")

/-- `Sigs::get_supported_sigs`. -/
def Sigs.get_supported_sigs (lib : SigLib) (st : SigsState) :
    List String × SigsState :=
  if st.supported_invoked then (st.supported_sigs, st)
  else
    let l := st.supported_sigs ++ Sigs.supportedLoop lib
    (l, { st with supported_sigs := l, supported_invoked := true })

/-- `Sigs::get_enabled_sigs`. -/
def Sigs.get_enabled_sigs (lib : SigLib) (st : SigsState) :
    List String × SigsState :=
  if st.enabled_invoked then (st.enabled_sigs, st)
  else
    let s := Sigs.get_supported_sigs lib st
    let l := s.2.enabled_sigs ++ s.1.filter lib.alg_is_enabled
    (l, { s.2 with enabled_sigs := l, enabled_invoked := true })

/-- `Sigs::is_sig_supported`. -/
def Sigs.is_sig_supported (lib : SigLib) (st : SigsState) (alg_name : String) :
    Bool × SigsState :=
  let s := Sigs.get_supported_sigs lib st
  (s.1.contains alg_name, s.2)

/-- `Sigs::is_sig_enabled` as in `oqs_cpp.hpp`: delegates to the native
`OQS_SIG_alg_is_enabled`. -/
def Sigs.is_sig_enabled (lib : SigLib) (alg_name : String) : Bool :=
  lib.alg_is_enabled alg_name

/-- `Sigs::is_sig_enabled` as in the older header `oqs_cpp.h`: trial
instantiation through `OQS_SIG_new`, freeing the context at once when the
allocation succeeded. -/
def Sigs.is_sig_enabled_oqs_cpp_h (lib : SigLib) (alg_name : String) :
    Bool × List OQSSig :=
  match lib.sig_new alg_name with
  | some sig => (true, [sig])
  | none => (false, [])

/-- States of the `Sigs` statics reachable by any interleaving of calls. -/
inductive Sigs.Reachable (lib : SigLib) : SigsState → Prop where
  | init : Sigs.Reachable lib initSigsState
  | supported {st} : Sigs.Reachable lib st →
      Sigs.Reachable lib (Sigs.get_supported_sigs lib st).2
  | enabled {st} : Sigs.Reachable lib st →
      Sigs.Reachable lib (Sigs.get_enabled_sigs lib st).2

/-- The population loop reproduces the native algorithm table verbatim. -/
theorem kems_supportedLoop_eq_table (lib : KemLib) :
    KEMs.supportedLoop lib = lib.alg_table := by
  apply List.ext_getElem
  · simp [KEMs.supportedLoop, KEMs.max_number_KEMs]
  · intro i h1 h2
    simp only [KEMs.supportedLoop, KEMs.max_number_KEMs, List.getElem_map,
      List.getElem_range, KEMs.get_KEM_name]
    rw [if_neg (by omega)]
    simp [List.getD_eq_getElem?_getD, List.getElem?_eq_getElem h2, Except.toOption]

/-- The population loop reproduces the native algorithm table verbatim. -/
theorem sigs_supportedLoop_eq_table (lib : SigLib) :
    Sigs.supportedLoop lib = lib.alg_table := by
  apply List.ext_getElem
  · simp [Sigs.supportedLoop, Sigs.max_number_sigs]
  · intro i h1 h2
    simp only [Sigs.supportedLoop, Sigs.max_number_sigs, List.getElem_map,
      List.getElem_range, Sigs.get_sig_name]
    rw [if_neg (by omega)]
    simp [List.getD_eq_getElem?_getD, List.getElem?_eq_getElem h2, Except.toOption]

/-- Invariant on the `KEMs` memoization state: a populated cache holds the
canonical list, an unpopulated cache is empty. -/
def KEMsStateInv (lib : KemLib) (st : KEMsState) : Prop :=
  (st.supported_invoked = true → st.supported_KEMs = lib.alg_table) ∧
  (st.supported_invoked = false → st.supported_KEMs = []) ∧
  (st.enabled_invoked = true →
    st.enabled_KEMs = lib.alg_table.filter lib.alg_is_enabled) ∧
  (st.enabled_invoked = false → st.enabled_KEMs = [])

theorem KEMsStateInv_init (lib : KemLib) : KEMsStateInv lib initKEMsState := by
  refine ⟨?_, ?_, ?_, ?_⟩ <;> simp [initKEMsState]

theorem KEMs.get_supported_KEMs_inv (lib : KemLib) (st : KEMsState)
    (h : KEMsStateInv lib st) :
    (KEMs.get_supported_KEMs lib st).1 = lib.alg_table ∧
      KEMsStateInv lib (KEMs.get_supported_KEMs lib st).2 := by
  obtain ⟨h1, h2, h3, h4⟩ := h
  by_cases hs : st.supported_invoked
  · simp only [KEMs.get_supported_KEMs, hs, if_true]
    exact ⟨h1 hs, h1, h2, h3, h4⟩
  · simp only [KEMs.get_supported_KEMs, hs, if_false,
      h2 (by simpa using hs), List.nil_append, kems_supportedLoop_eq_table]
    refine ⟨rfl, fun _ => rfl, by simp, fun he => h3 he, fun he => h4 he⟩

theorem KEMs.get_enabled_KEMs_inv (lib : KemLib) (st : KEMsState)
    (h : KEMsStateInv lib st) :
    (KEMs.get_enabled_KEMs lib st).1 =
        lib.alg_table.filter lib.alg_is_enabled ∧
      KEMsStateInv lib (KEMs.get_enabled_KEMs lib st).2 := by
  by_cases he : st.enabled_invoked
  · simp only [KEMs.get_enabled_KEMs, he, if_true]
    exact ⟨h.2.2.1 he, h⟩
  · obtain ⟨hsup, hinv⟩ := KEMs.get_supported_KEMs_inv lib st h
    obtain ⟨g1, g2, g3, g4⟩ := hinv
    have hen : (KEMs.get_supported_KEMs lib st).2.enabled_invoked = st.enabled_invoked := by
      simp only [KEMs.get_supported_KEMs]
      split <;> rfl
    simp only [KEMs.get_enabled_KEMs, he, if_false, hsup,
      g4 (by rw [hen]; simpa using he), List.nil_append]
    exact ⟨rfl, g1, g2, fun _ => rfl, by simp⟩

theorem kems_reachable_inv (lib : KemLib) (st : KEMsState)
    (h : KEMs.Reachable lib st) : KEMsStateInv lib st := by
  induction h with
  | init => exact KEMsStateInv_init lib
  | supported hr ih => exact (KEMs.get_supported_KEMs_inv lib _ ih).2
  | enabled hr ih => exact (KEMs.get_enabled_KEMs_inv lib _ ih).2

/-- Invariant on the `Sigs` memoization state. -/
def SigsStateInv (lib : SigLib) (st : SigsState) : Prop :=
  (st.supported_invoked = true → st.supported_sigs = lib.alg_table) ∧
  (st.supported_invoked = false → st.supported_sigs = []) ∧
  (st.enabled_invoked = true →
    st.enabled_sigs = lib.alg_table.filter lib.alg_is_enabled) ∧
  (st.enabled_invoked = false → st.enabled_sigs = [])

theorem SigsStateInv_init (lib : SigLib) : SigsStateInv lib initSigsState := by
  refine ⟨?_, ?_, ?_, ?_⟩ <;> simp [initSigsState]

theorem Sigs.get_supported_sigs_inv (lib : SigLib) (st : SigsState)
    (h : SigsStateInv lib st) :
    (Sigs.get_supported_sigs lib st).1 = lib.alg_table ∧
      SigsStateInv lib (Sigs.get_supported_sigs lib st).2 := by
  obtain ⟨h1, h2, h3, h4⟩ := h
  by_cases hs : st.supported_invoked
  · simp only [Sigs.get_supported_sigs, hs, if_true]
    exact ⟨h1 hs, h1, h2, h3, h4⟩
  · simp only [Sigs.get_supported_sigs, hs, if_false,
      h2 (by simpa using hs), List.nil_append, sigs_supportedLoop_eq_table]
    refine ⟨rfl, fun _ => rfl, by simp, fun he => h3 he, fun he => h4 he⟩

theorem Sigs.get_enabled_sigs_inv (lib : SigLib) (st : SigsState)
    (h : SigsStateInv lib st) :
    (Sigs.get_enabled_sigs lib st).1 =
        lib.alg_table.filter lib.alg_is_enabled ∧
      SigsStateInv lib (Sigs.get_enabled_sigs lib st).2 := by
  by_cases he : st.enabled_invoked
  · simp only [Sigs.get_enabled_sigs, he, if_true]
    exact ⟨h.2.2.1 he, h⟩
  · obtain ⟨hsup, hinv⟩ := Sigs.get_supported_sigs_inv lib st h
    obtain ⟨g1, g2, g3, g4⟩ := hinv
    have hen : (Sigs.get_supported_sigs lib st).2.enabled_invoked = st.enabled_invoked := by
      simp only [Sigs.get_supported_sigs]
      split <;> rfl
    simp only [Sigs.get_enabled_sigs, he, if_false, hsup,
      g4 (by rw [hen]; simpa using he), List.nil_append]
    exact ⟨rfl, g1, g2, fun _ => rfl, by simp⟩

theorem sigs_reachable_inv (lib : SigLib) (st : SigsState)
    (h : Sigs.Reachable lib st) : SigsStateInv lib st := by
  induction h with
  | init => exact SigsStateInv_init lib
  | supported hr ih => exact (Sigs.get_supported_sigs_inv lib _ ih).2
  | enabled hr ih => exact (Sigs.get_enabled_sigs_inv lib _ ih).2

/-- The error kinds the wrapper throws.  `MechanismNotSupportedError` and
`MechanismNotEnabledError` are distinct exception classes in the source;
every other throw site constructs a plain `std::runtime_error` whose message
string is the only distinguishing datum, so the embedding carries it. -/
inductive OqsError where
  | MechanismNotSupportedError (alg_name : String)
  | MechanismNotEnabledError (alg_name : String)
  | RuntimeError (msg : String)
  deriving DecidableEq

/-- The message of the secret-key-length `std::runtime_error` thrown by
`KeyEncapsulation::decap_secret` and `Signature::sign` (the source uses this
exact text, naming `oqs::Signature::generate_keypair` even at the KEM call
site). -/
def secretKeyLengthMsg : String :=
  "Incorrect secret key length, make sure you specify one in the constructor or run oqs::Signature::generate_keypair()"

/-- `oqs::KeyEncapsulation::KeyEncapsulationDetails`. -/
structure KeyEncapsulationDetails where
  name : String
  version : String
  claimed_nist_level : Nat
  is_ind_cca : Bool
  length_public_key : Nat
  length_secret_key : Nat
  length_ciphertext : Nat
  length_shared_secret : Nat
  deriving DecidableEq

instance : Inhabited KeyEncapsulationDetails :=
  ⟨⟨"", "", 0, false, 0, 0, 0, 0⟩⟩

/-- The state of an `oqs::KeyEncapsulation` handle: the `shared_ptr` to the
native context (`none` models a null pointer), the secret-key buffer, and the
details snapshot. -/
structure KeyEncapsulation where
  kem : Option OQSKem
  secret_key : Bytes
  alg_details : KeyEncapsulationDetails
  deriving DecidableEq

/-- The field-by-field copy of native-context metadata into the details
snapshot performed by the `KeyEncapsulation` constructor. -/
def detailsOfKem (kem : OQSKem) : KeyEncapsulationDetails :=
  ⟨kem.method_name, kem.alg_version, kem.claimed_nist_level, kem.ind_cca,
   kem.length_public_key, kem.length_secret_key, kem.length_ciphertext,
   kem.length_shared_secret⟩

/-- The `KeyEncapsulation` constructor: stores the optional secret key, checks
`is_KEM_enabled` and, when that fails, distinguishes supported-but-disabled
from unsupported; otherwise allocates the native context and snapshots its
metadata.  The source dereferences the freshly allocated context without a
null check, so a null return from `OQS_KEM_new` is undefined behaviour there;
the embedding reads default metadata in that case. -/
def KeyEncapsulation.construct (lib : KemLib) (st : KEMsState)
    (alg_name : String) (secret_key : Bytes := []) :
    Except OqsError KeyEncapsulation × KEMsState :=
  if ¬ KEMs.is_KEM_enabled lib alg_name then
    let s := KEMs.is_KEM_supported lib st alg_name
    if s.1 then (.error (.MechanismNotEnabledError alg_name), s.2)
    else (.error (.MechanismNotSupportedError alg_name), s.2)
  else
    let kem := lib.kem_new alg_name
    (.ok { kem := kem, secret_key := secret_key,
           alg_details := detailsOfKem (kem.getD default) }, st)

/-- `KeyEncapsulation` move constructor: the context pointer is moved out of
`rhs`, the secret key is copied, then the source buffer is cleansed with
`OQS_MEM_cleanse` and resized to 0.  Returns the constructed handle, the
moved-from `rhs`, and the cleanse trace.  (The moved-from details strings are
left unspecified by C++; the embedding leaves them in place, which no theorem
below relies on.) -/
def KeyEncapsulation.moveConstruct (rhs : KeyEncapsulation) :
    KeyEncapsulation × KeyEncapsulation × List Bytes :=
  let this0 : KeyEncapsulation :=
    { kem := rhs.kem, secret_key := rhs.secret_key,
      alg_details := rhs.alg_details }
  let rhs1 : KeyEncapsulation := { rhs with kem := none }
  let trace := [rhs1.secret_key]
  let rhs2 : KeyEncapsulation :=
    { rhs1 with secret_key := List.replicate rhs1.secret_key.length 0 }
  let rhs3 : KeyEncapsulation :=
    { rhs2 with secret_key := vectorResize rhs2.secret_key 0 }
  (this0, rhs3, trace)

/-- `KeyEncapsulation` move assignment: moves the context pointer, copy-assigns
the secret key over the destination buffer (the destination's previous
contents are discarded by plain vector assignment, with no cleanse call),
then cleanses and empties the source buffer.  Returns the assigned-to handle,
the moved-from `rhs`, and the cleanse trace. -/
def KeyEncapsulation.moveAssign (this rhs : KeyEncapsulation) :
    KeyEncapsulation × KeyEncapsulation × List Bytes :=
  let this1 : KeyEncapsulation := { this with kem := rhs.kem }
  let rhs1 : KeyEncapsulation := { rhs with kem := none }
  let this2 : KeyEncapsulation := { this1 with alg_details := rhs1.alg_details }
  let this3 : KeyEncapsulation := { this2 with secret_key := rhs1.secret_key }
  let trace := [rhs1.secret_key]
  let rhs2 : KeyEncapsulation :=
    { rhs1 with secret_key := List.replicate rhs1.secret_key.length 0 }
  let rhs3 : KeyEncapsulation :=
    { rhs2 with secret_key := vectorResize rhs2.secret_key 0 }
  (this3, rhs3, trace)

/-- `KeyEncapsulation` destructor: cleanses the secret buffer when it is
nonempty.  Returns the cleanse trace. -/
def KeyEncapsulation.destruct (h : KeyEncapsulation) : List Bytes :=
  if !h.secret_key.isEmpty then [h.secret_key] else []

/-- `KeyEncapsulation::generate_keypair`: allocates a zero public-key buffer,
assigns a fresh zero secret-key buffer over the member (plain vector
assignment, no cleanse call on the previous contents), invokes the native
keypair primitive in place, and throws on non-success.  Returns the result,
the handle afterwards, and the cleanse trace (which is empty: this function
never calls `OQS_MEM_cleanse`). -/
def KeyEncapsulation.generate_keypair (lib : KemLib) (h : KeyEncapsulation) :
    Except OqsError Bytes × KeyEncapsulation × List Bytes :=
  let public_key : Bytes := List.replicate h.alg_details.length_public_key 0
  let h1 : KeyEncapsulation :=
    { h with secret_key := List.replicate h.alg_details.length_secret_key 0 }
  let r := lib.keypair (h1.kem.getD default) public_key h1.secret_key
  let h2 : KeyEncapsulation := { h1 with secret_key := r.2.2 }
  if r.1 ≠ OQS_STATUS.OQS_SUCCESS then
    (.error (.RuntimeError "Can not generate keypair"), h2, [])
  else
    (.ok r.2.1, h2, [])

/-- `KeyEncapsulation::export_secret_key` (a const member function): returns a
copy of the secret key and the handle afterwards. -/
def KeyEncapsulation.export_secret_key (h : KeyEncapsulation) :
    Bytes × KeyEncapsulation :=
  (h.secret_key, h)

/-- `KeyEncapsulation::encap_secret` (const): validates the public-key length,
allocates the ciphertext and shared-secret buffers, invokes the native
encapsulation, and throws on non-success.  Returns the result and the handle
afterwards. -/
def KeyEncapsulation.encap_secret (lib : KemLib) (h : KeyEncapsulation)
    (public_key : Bytes) :
    Except OqsError (Bytes × Bytes) × KeyEncapsulation :=
  if public_key.length ≠ h.alg_details.length_public_key then
    (.error (.RuntimeError "Incorrect public key length"), h)
  else
    let ciphertext : Bytes := List.replicate h.alg_details.length_ciphertext 0
    let shared_secret : Bytes :=
      List.replicate h.alg_details.length_shared_secret 0
    let r := lib.encaps (h.kem.getD default) ciphertext shared_secret public_key
    if r.1 ≠ OQS_STATUS.OQS_SUCCESS then
      (.error (.RuntimeError "Can not encapsulate secret"), h)
    else
      (.ok (r.2.1, r.2.2), h)

/-- `KeyEncapsulation::decap_secret` (const): validates the ciphertext length,
then the stored secret key's length, allocates the shared-secret buffer,
invokes the native decapsulation, and throws on non-success. -/
def KeyEncapsulation.decap_secret (lib : KemLib) (h : KeyEncapsulation)
    (ciphertext : Bytes) : Except OqsError Bytes × KeyEncapsulation :=
  if ciphertext.length ≠ h.alg_details.length_ciphertext then
    (.error (.RuntimeError "Incorrect ciphertext length"), h)
  else if h.secret_key.length ≠ h.alg_details.length_secret_key then
    (.error (.RuntimeError secretKeyLengthMsg), h)
  else
    let shared_secret : Bytes :=
      List.replicate h.alg_details.length_shared_secret 0
    let r := lib.decaps (h.kem.getD default) shared_secret ciphertext
      h.secret_key
    if r.1 ≠ OQS_STATUS.OQS_SUCCESS then
      (.error (.RuntimeError "Can not decapsulate secret"), h)
    else
      (.ok r.2, h)

/-- `oqs::Signature::SignatureDetails`. -/
structure SignatureDetails where
  name : String
  version : String
  claimed_nist_level : Nat
  is_euf_cma : Bool
  length_public_key : Nat
  length_secret_key : Nat
  max_length_signature : Nat
  deriving DecidableEq

instance : Inhabited SignatureDetails := ⟨⟨"", "", 0, false, 0, 0, 0⟩⟩

/-- The state of an `oqs::Signature` handle. -/
structure Signature where
  sig : Option OQSSig
  secret_key : Bytes
  alg_details : SignatureDetails
  deriving DecidableEq

/-- The field-by-field copy of native-context metadata performed by the
`Signature` constructor. -/
def detailsOfSig (sig : OQSSig) : SignatureDetails :=
  ⟨sig.method_name, sig.alg_version, sig.claimed_nist_level, sig.euf_cma,
   sig.length_public_key, sig.length_secret_key, sig.length_signature⟩

/-- The `Signature` constructor, mirroring `KeyEncapsulation.construct`. -/
def Signature.construct (lib : SigLib) (st : SigsState) (alg_name : String)
    (secret_key : Bytes := []) : Except OqsError Signature × SigsState :=
  if ¬ Sigs.is_sig_enabled lib alg_name then
    let s := Sigs.is_sig_supported lib st alg_name
    if s.1 then (.error (.MechanismNotEnabledError alg_name), s.2)
    else (.error (.MechanismNotSupportedError alg_name), s.2)
  else
    let sig := lib.sig_new alg_name
    (.ok { sig := sig, secret_key := secret_key,
           alg_details := detailsOfSig (sig.getD default) }, st)

/-- `Signature` move constructor, mirroring
`KeyEncapsulation.moveConstruct`. -/
def Signature.moveConstruct (rhs : Signature) :
    Signature × Signature × List Bytes :=
  let this0 : Signature :=
    { sig := rhs.sig, secret_key := rhs.secret_key,
      alg_details := rhs.alg_details }
  let rhs1 : Signature := { rhs with sig := none }
  let trace := [rhs1.secret_key]
  let rhs2 : Signature :=
    { rhs1 with secret_key := List.replicate rhs1.secret_key.length 0 }
  let rhs3 : Signature :=
    { rhs2 with secret_key := vectorResize rhs2.secret_key 0 }
  (this0, rhs3, trace)

/-- `Signature` move assignment, mirroring
`KeyEncapsulation.moveAssign`. -/
def Signature.moveAssign (this rhs : Signature) :
    Signature × Signature × List Bytes :=
  let this1 : Signature := { this with sig := rhs.sig }
  let rhs1 : Signature := { rhs with sig := none }
  let this2 : Signature := { this1 with alg_details := rhs1.alg_details }
  let this3 : Signature := { this2 with secret_key := rhs1.secret_key }
  let trace := [rhs1.secret_key]
  let rhs2 : Signature :=
    { rhs1 with secret_key := List.replicate rhs1.secret_key.length 0 }
  let rhs3 : Signature :=
    { rhs2 with secret_key := vectorResize rhs2.secret_key 0 }
  (this3, rhs3, trace)

/-- `Signature` destructor: cleanses the secret buffer when nonempty. -/
def Signature.destruct (h : Signature) : List Bytes :=
  if !h.secret_key.isEmpty then [h.secret_key] else []

/-- `Signature::generate_keypair`, mirroring
`KeyEncapsulation.generate_keypair`. -/
def Signature.generate_keypair (lib : SigLib) (h : Signature) :
    Except OqsError Bytes × Signature × List Bytes :=
  let public_key : Bytes := List.replicate h.alg_details.length_public_key 0
  let h1 : Signature :=
    { h with secret_key := List.replicate h.alg_details.length_secret_key 0 }
  let r := lib.keypair (h1.sig.getD default) public_key h1.secret_key
  let h2 : Signature := { h1 with secret_key := r.2.2 }
  if r.1 ≠ OQS_STATUS.OQS_SUCCESS then
    (.error (.RuntimeError "Can not generate keypair"), h2, [])
  else
    (.ok r.2.1, h2, [])

/-- `Signature::export_secret_key` (const). -/
def Signature.export_secret_key (h : Signature) : Bytes × Signature :=
  (h.secret_key, h)

/-- `Signature::sign` (const): validates the stored secret key's length,
allocates a max-length signature buffer, invokes the native sign primitive,
throws on non-success, and resizes the buffer to the written length the
native primitive reported. -/
def Signature.sign (lib : SigLib) (h : Signature) (message : Bytes) :
    Except OqsError Bytes × Signature :=
  if h.secret_key.length ≠ h.alg_details.length_secret_key then
    (.error (.RuntimeError secretKeyLengthMsg), h)
  else
    let signature : Bytes := List.replicate h.alg_details.max_length_signature 0
    let r := lib.sign (h.sig.getD default) signature message h.secret_key
    if r.1 ≠ OQS_STATUS.OQS_SUCCESS then
      (.error (.RuntimeError "Can not sign message"), h)
    else
      (.ok (vectorResize r.2.1 r.2.2), h)

/-- `Signature::verify` (const) as in `oqs_cpp.hpp`: validates the public-key
length and the signature size, then returns whether the native verification
reports success (a cryptographic rejection is a `false` return, not a
throw). -/
def Signature.verify (lib : SigLib) (h : Signature)
    (message signature public_key : Bytes) :
    Except OqsError Bool × Signature :=
  if public_key.length ≠ h.alg_details.length_public_key then
    (.error (.RuntimeError "Incorrect public key length"), h)
  else if signature.length > h.alg_details.max_length_signature then
    (.error (.RuntimeError "Incorrect signature size"), h)
  else
    (.ok (decide (lib.verify (h.sig.getD default) message signature public_key
      = OQS_STATUS.OQS_SUCCESS)), h)

/-- `Signature::verify` as in the older header `oqs_cpp.h`: validates only the
public-key length (there is no signature-size check), then returns whether
the native verification reports success. -/
def Signature.verify_oqs_cpp_h (lib : SigLib) (h : Signature)
    (message signature public_key : Bytes) :
    Except OqsError Bool × Signature :=
  if public_key.length ≠ h.alg_details.length_public_key then
    (.error (.RuntimeError "Incorrect public key length"), h)
  else
    (.ok (decide (lib.verify (h.sig.getD default) message signature public_key
      = OQS_STATUS.OQS_SUCCESS)), h)

/-- A concrete native KEM context, for witnesses and counterexamples. -/
def kemCtxEx : OQSKem := ⟨"Alg", "1.0", 1, true, 2, 3, 4, 5⟩

/-- A concrete native KEM library: two supported algorithms, only the first
enabled, native primitives succeeding and leaving their buffers as given. -/
def kemLibEx : KemLib where
  alg_table := ["Alg", "Alg2"]
  alg_is_enabled := fun n => decide (n = "Alg")
  kem_new := fun n => if n = "Alg" then some kemCtxEx else none
  keypair := fun _ pk sk => (OQS_STATUS.OQS_SUCCESS, pk, sk)
  encaps := fun _ ct ss _ => (OQS_STATUS.OQS_SUCCESS, ct, ss)
  decaps := fun _ ss _ _ => (OQS_STATUS.OQS_SUCCESS, ss)

/-- A KEM library whose native keypair primitive fails after writing part of
the secret buffer. -/
def kemLibFail : KemLib :=
  { kemLibEx with keypair := fun _ pk _ => (OQS_STATUS.OQS_ERROR, pk, [9, 9]) }

/-- A concrete native signature context. -/
def sigCtxEx : OQSSig := ⟨"SigAlg", "1.0", 1, true, 2, 3, 4⟩

/-- A concrete native signature library. -/
def sigLibEx : SigLib where
  alg_table := ["SigAlg", "SigAlg2"]
  alg_is_enabled := fun n => decide (n = "SigAlg")
  sig_new := fun n => if n = "SigAlg" then some sigCtxEx else none
  keypair := fun _ pk sk => (OQS_STATUS.OQS_SUCCESS, pk, sk)
  sign := fun _ buf _ _ => (OQS_STATUS.OQS_SUCCESS, buf, 2)
  verify := fun _ _ _ _ => OQS_STATUS.OQS_SUCCESS

/-- A signature library whose native keypair primitive fails after writing
part of the secret buffer. -/
def sigLibFail : SigLib :=
  { sigLibEx with keypair := fun _ pk _ => (OQS_STATUS.OQS_ERROR, pk, [9, 9]) }

/-- A concrete KEM handle holding a secret key. -/
def kemHandleEx : KeyEncapsulation :=
  { kem := some kemCtxEx, secret_key := [1, 2, 3],
    alg_details := detailsOfKem kemCtxEx }

/-- A concrete signature handle holding a secret key. -/
def sigHandleEx : Signature :=
  { sig := some sigCtxEx, secret_key := [1, 2, 3],
    alg_details := detailsOfSig sigCtxEx }

/-- A concrete KEM handle used as a move-assignment destination. -/
def kemDstEx : KeyEncapsulation := { kemHandleEx with secret_key := [5, 5] }

/-- C1 counterexample: `generate_keypair` does not scrub the prior secret key
before overwriting it — on the handle holding secret key `[1, 2, 3]` the
cleanse trace of the call is empty, so the prior key is never passed to the
scrub primitive; and when the native keypair primitive fails, the call throws
with the secret-key field left holding exactly the bytes the native primitive
wrote (`[9, 9]`: partially written, not scrubbed, not zero). -/
theorem generate_keypair_scrub_cex :
    kemHandleEx.secret_key ≠ [] ∧
    (KeyEncapsulation.generate_keypair kemLibEx kemHandleEx).2.2 = [] ∧
    kemHandleEx.secret_key ∉
      (KeyEncapsulation.generate_keypair kemLibEx kemHandleEx).2.2 ∧
    (KeyEncapsulation.generate_keypair kemLibFail kemHandleEx).1 =
      .error (.RuntimeError "Can not generate keypair") ∧
    (KeyEncapsulation.generate_keypair kemLibFail kemHandleEx).2.1.secret_key
      = [9, 9] ∧
    (9 : Nat) ≠ 0 := by
  refine ⟨by decide, rfl, by decide, rfl, rfl, by decide⟩

/-- C1 (amended): `generate_keypair` (for both handle kinds) replaces the
secret key by assigning a fresh zero buffer of length `length_secret_key`
without ever invoking the scrub primitive (its cleanse trace is empty); the
handle's secret-key field afterwards holds exactly what the native keypair
primitive left in that buffer, and the call returns the written public key on
native success and throws the keypair-generation `std::runtime_error`
otherwise. -/
theorem generate_keypair_spec (klib : KemLib) (slib : SigLib)
    (hk : KeyEncapsulation) (hs : Signature) :
    (KeyEncapsulation.generate_keypair klib hk).2.2 = [] ∧
    (KeyEncapsulation.generate_keypair klib hk).2.1.secret_key =
      (klib.keypair (hk.kem.getD default)
        (List.replicate hk.alg_details.length_public_key 0)
        (List.replicate hk.alg_details.length_secret_key 0)).2.2 ∧
    (KeyEncapsulation.generate_keypair klib hk).1 =
      (if (klib.keypair (hk.kem.getD default)
            (List.replicate hk.alg_details.length_public_key 0)
            (List.replicate hk.alg_details.length_secret_key 0)).1
          = OQS_STATUS.OQS_SUCCESS
       then .ok (klib.keypair (hk.kem.getD default)
          (List.replicate hk.alg_details.length_public_key 0)
          (List.replicate hk.alg_details.length_secret_key 0)).2.1
       else .error (.RuntimeError "Can not generate keypair")) ∧
    (Signature.generate_keypair slib hs).2.2 = [] ∧
    (Signature.generate_keypair slib hs).2.1.secret_key =
      (slib.keypair (hs.sig.getD default)
        (List.replicate hs.alg_details.length_public_key 0)
        (List.replicate hs.alg_details.length_secret_key 0)).2.2 ∧
    (Signature.generate_keypair slib hs).1 =
      (if (slib.keypair (hs.sig.getD default)
            (List.replicate hs.alg_details.length_public_key 0)
            (List.replicate hs.alg_details.length_secret_key 0)).1
          = OQS_STATUS.OQS_SUCCESS
       then .ok (slib.keypair (hs.sig.getD default)
          (List.replicate hs.alg_details.length_public_key 0)
          (List.replicate hs.alg_details.length_secret_key 0)).2.1
       else .error (.RuntimeError "Can not generate keypair")) := by
  simp only [KeyEncapsulation.generate_keypair, Signature.generate_keypair]
  refine ⟨?_, ?_, ?_, ?_, ?_, ?_⟩ <;> split <;> simp_all

/-- C2 counterexample: move assignment scrubs only the moved-from source's
buffer.  Assigning onto the destination handle whose secret key is `[5, 5]`
produces a cleanse trace holding only the source's `[1, 2, 3]`; the
destination's overwritten buffer `[5, 5]` is never passed to the scrub
primitive, so the claim's "overwritten destination buffer" path fails. -/
theorem move_scrub_cex :
    kemDstEx.secret_key = [5, 5] ∧
    (KeyEncapsulation.moveAssign kemDstEx kemHandleEx).2.2 = [[1, 2, 3]] ∧
    kemDstEx.secret_key ∉
      (KeyEncapsulation.moveAssign kemDstEx kemHandleEx).2.2 := by
  refine ⟨rfl, rfl, by decide⟩

/-- C2 (amended): on destruction and on both move paths the moved-from or
destroyed secret buffer is scrubbed before being treated as empty — the move
constructor and move assignment pass the source's secret bytes to the scrub
primitive and leave the moved-from handle's buffer empty, and the destructor
passes the buffer to the scrub primitive exactly when it is nonempty; but in
move assignment the destination's previous buffer is discarded by plain
vector copy assignment without scrubbing (the trace holds only the source
buffer).  Both `KeyEncapsulation` and `Signature` behave identically. -/
theorem secret_scrub_on_move_and_destroy (rhs dst : KeyEncapsulation)
    (srhs sdst : Signature) :
    (KeyEncapsulation.moveConstruct rhs).2.2 = [rhs.secret_key] ∧
    (KeyEncapsulation.moveConstruct rhs).2.1.secret_key = [] ∧
    (KeyEncapsulation.moveConstruct rhs).1.secret_key = rhs.secret_key ∧
    (KeyEncapsulation.moveAssign dst rhs).2.2 = [rhs.secret_key] ∧
    (KeyEncapsulation.moveAssign dst rhs).2.1.secret_key = [] ∧
    (KeyEncapsulation.moveAssign dst rhs).1.secret_key = rhs.secret_key ∧
    KeyEncapsulation.destruct dst =
      (if dst.secret_key = [] then [] else [dst.secret_key]) ∧
    (Signature.moveConstruct srhs).2.2 = [srhs.secret_key] ∧
    (Signature.moveConstruct srhs).2.1.secret_key = [] ∧
    (Signature.moveConstruct srhs).1.secret_key = srhs.secret_key ∧
    (Signature.moveAssign sdst srhs).2.2 = [srhs.secret_key] ∧
    (Signature.moveAssign sdst srhs).2.1.secret_key = [] ∧
    (Signature.moveAssign sdst srhs).1.secret_key = srhs.secret_key ∧
    Signature.destruct sdst =
      (if sdst.secret_key = [] then [] else [sdst.secret_key]) := by
  refine ⟨rfl, ?_, rfl, rfl, ?_, rfl, ?_, rfl, ?_, rfl, rfl, ?_, rfl, ?_⟩
  · simp [KeyEncapsulation.moveConstruct, vectorResize]
  · simp [KeyEncapsulation.moveAssign, vectorResize]
  · cases hd : dst.secret_key <;> simp [KeyEncapsulation.destruct, hd]
  · simp [Signature.moveConstruct, vectorResize]
  · simp [Signature.moveAssign, vectorResize]
  · cases hd : sdst.secret_key <;> simp [Signature.destruct, hd]

/-- C3: for every algorithm name, the handle constructors throw
`MechanismNotSupportedError` exactly when the name is absent from the
supported list, and `MechanismNotEnabledError` exactly when the name is in
the supported list but absent from the enabled list; the two error kinds are
distinct.  The native library is assumed to enable only names of its own
algorithm table (in liboqs the enabled check consults the same static table
the identifiers come from). -/
theorem constructor_error_discrimination (klib : KemLib) (kst : KEMsState)
    (slib : SigLib) (sst : SigsState) (n : String) (sk : Bytes)
    (hkr : KEMs.Reachable klib kst)
    (hke : ∀ m, klib.alg_is_enabled m = true → m ∈ klib.alg_table)
    (hsr : Sigs.Reachable slib sst)
    (hse : ∀ m, slib.alg_is_enabled m = true → m ∈ slib.alg_table) :
    ((KeyEncapsulation.construct klib kst n sk).1 =
        .error (.MechanismNotSupportedError n) ↔
      n ∉ (KEMs.get_supported_KEMs klib kst).1) ∧
    ((KeyEncapsulation.construct klib kst n sk).1 =
        .error (.MechanismNotEnabledError n) ↔
      n ∈ (KEMs.get_supported_KEMs klib kst).1 ∧
        n ∉ (KEMs.get_enabled_KEMs klib kst).1) ∧
    ((Signature.construct slib sst n sk).1 =
        .error (.MechanismNotSupportedError n) ↔
      n ∉ (Sigs.get_supported_sigs slib sst).1) ∧
    ((Signature.construct slib sst n sk).1 =
        .error (.MechanismNotEnabledError n) ↔
      n ∈ (Sigs.get_supported_sigs slib sst).1 ∧
        n ∉ (Sigs.get_enabled_sigs slib sst).1) ∧
    (∀ a b : String,
      OqsError.MechanismNotSupportedError a ≠
        OqsError.MechanismNotEnabledError b) := by
  have hkinv := kems_reachable_inv klib kst hkr
  have hksup := (KEMs.get_supported_KEMs_inv klib kst hkinv).1
  have hken := (KEMs.get_enabled_KEMs_inv klib kst hkinv).1
  have hsinv := sigs_reachable_inv slib sst hsr
  have hssup := (Sigs.get_supported_sigs_inv slib sst hsinv).1
  have hsen := (Sigs.get_enabled_sigs_inv slib sst hsinv).1
  refine ⟨?_, ?_, ?_, ?_, fun a b h => by cases h⟩
  · by_cases hE : klib.alg_is_enabled n
    · simp [KeyEncapsulation.construct, KEMs.is_KEM_enabled, hE, hksup,
        hke n hE]
    · by_cases hm : n ∈ klib.alg_table <;>
        simp [KeyEncapsulation.construct, KEMs.is_KEM_enabled, hE, hksup,
          KEMs.is_KEM_supported, hm]
  · by_cases hE : klib.alg_is_enabled n
    · simp [KeyEncapsulation.construct, KEMs.is_KEM_enabled, hE, hksup, hken,
        List.mem_filter, hke n hE]
    · by_cases hm : n ∈ klib.alg_table <;>
        simp [KeyEncapsulation.construct, KEMs.is_KEM_enabled, hE, hksup,
          hken, KEMs.is_KEM_supported, List.mem_filter, hm]
  · by_cases hE : slib.alg_is_enabled n
    · simp [Signature.construct, Sigs.is_sig_enabled, hE, hssup, hse n hE]
    · by_cases hm : n ∈ slib.alg_table <;>
        simp [Signature.construct, Sigs.is_sig_enabled, hE, hssup,
          Sigs.is_sig_supported, hm]
  · by_cases hE : slib.alg_is_enabled n
    · simp [Signature.construct, Sigs.is_sig_enabled, hE, hssup, hsen,
        List.mem_filter, hse n hE]
    · by_cases hm : n ∈ slib.alg_table <;>
        simp [Signature.construct, Sigs.is_sig_enabled, hE, hssup, hsen,
          Sigs.is_sig_supported, List.mem_filter, hm]

/-- C3 witness: the discrimination theorem applied to the concrete libraries
at the supported-but-disabled name. -/
theorem constructor_error_discrimination_witness :
    (KEMs.Reachable kemLibEx initKEMsState ∧
      (∀ m, kemLibEx.alg_is_enabled m = true → m ∈ kemLibEx.alg_table) ∧
      Sigs.Reachable sigLibEx initSigsState ∧
      (∀ m, sigLibEx.alg_is_enabled m = true → m ∈ sigLibEx.alg_table)) ∧
    (((KeyEncapsulation.construct kemLibEx initKEMsState "Alg2" []).1 =
        .error (.MechanismNotSupportedError "Alg2") ↔
      "Alg2" ∉ (KEMs.get_supported_KEMs kemLibEx initKEMsState).1) ∧
    ((KeyEncapsulation.construct kemLibEx initKEMsState "Alg2" []).1 =
        .error (.MechanismNotEnabledError "Alg2") ↔
      "Alg2" ∈ (KEMs.get_supported_KEMs kemLibEx initKEMsState).1 ∧
        "Alg2" ∉ (KEMs.get_enabled_KEMs kemLibEx initKEMsState).1) ∧
    ((Signature.construct sigLibEx initSigsState "Alg2" []).1 =
        .error (.MechanismNotSupportedError "Alg2") ↔
      "Alg2" ∉ (Sigs.get_supported_sigs sigLibEx initSigsState).1) ∧
    ((Signature.construct sigLibEx initSigsState "Alg2" []).1 =
        .error (.MechanismNotEnabledError "Alg2") ↔
      "Alg2" ∈ (Sigs.get_supported_sigs sigLibEx initSigsState).1 ∧
        "Alg2" ∉ (Sigs.get_enabled_sigs sigLibEx initSigsState).1) ∧
    (∀ a b : String,
      OqsError.MechanismNotSupportedError a ≠
        OqsError.MechanismNotEnabledError b)) := by
  have hke : ∀ m, kemLibEx.alg_is_enabled m = true → m ∈ kemLibEx.alg_table := by
    intro m hm
    have hmm : m = "Alg" := by simpa [kemLibEx] using hm
    simp [kemLibEx, hmm]
  have hse : ∀ m, sigLibEx.alg_is_enabled m = true → m ∈ sigLibEx.alg_table := by
    intro m hm
    have hmm : m = "SigAlg" := by simpa [sigLibEx] using hm
    simp [sigLibEx, hmm]
  exact ⟨⟨KEMs.Reachable.init, hke, Sigs.Reachable.init, hse⟩,
    constructor_error_discrimination kemLibEx initKEMsState sigLibEx
      initSigsState "Alg2" [] KEMs.Reachable.init hke Sigs.Reachable.init hse⟩

/-- C4: the enabled check returns true exactly when the native context
allocation for the name succeeds — assuming the native contract that
`alg_is_enabled` agrees with instantiability (which liboqs guarantees: both
consult the same algorithm availability) — and the older header's in-wrapper
trial-instantiation variant both returns that result and frees exactly the
contexts it allocated. -/
theorem is_enabled_iff_trial_instantiation (klib : KemLib) (slib : SigLib)
    (n : String)
    (hk : ∀ m, klib.alg_is_enabled m = (klib.kem_new m).isSome)
    (hs : ∀ m, slib.alg_is_enabled m = (slib.sig_new m).isSome) :
    (KEMs.is_KEM_enabled klib n = (klib.kem_new n).isSome) ∧
    ((KEMs.is_KEM_enabled_oqs_cpp_h klib n).1 = (klib.kem_new n).isSome) ∧
    ((KEMs.is_KEM_enabled_oqs_cpp_h klib n).2 = (klib.kem_new n).toList) ∧
    (Sigs.is_sig_enabled slib n = (slib.sig_new n).isSome) ∧
    ((Sigs.is_sig_enabled_oqs_cpp_h slib n).1 = (slib.sig_new n).isSome) ∧
    ((Sigs.is_sig_enabled_oqs_cpp_h slib n).2 = (slib.sig_new n).toList) := by
  refine ⟨hk n, ?_, ?_, hs n, ?_, ?_⟩
  · cases hn : klib.kem_new n <;> simp [KEMs.is_KEM_enabled_oqs_cpp_h, hn]
  · cases hn : klib.kem_new n <;>
      simp [KEMs.is_KEM_enabled_oqs_cpp_h, hn, Option.toList]
  · cases hn : slib.sig_new n <;> simp [Sigs.is_sig_enabled_oqs_cpp_h, hn]
  · cases hn : slib.sig_new n <;>
      simp [Sigs.is_sig_enabled_oqs_cpp_h, hn, Option.toList]

/-- C4 witness: the trial-instantiation theorem applied to the concrete
libraries, whose enabled predicate agrees with context allocation. -/
theorem is_enabled_iff_trial_instantiation_witness :
    ((∀ m, kemLibEx.alg_is_enabled m = (kemLibEx.kem_new m).isSome) ∧
      (∀ m, sigLibEx.alg_is_enabled m = (sigLibEx.sig_new m).isSome)) ∧
    ((KEMs.is_KEM_enabled kemLibEx "Alg2" =
        (kemLibEx.kem_new "Alg2").isSome) ∧
    ((KEMs.is_KEM_enabled_oqs_cpp_h kemLibEx "Alg2").1 =
        (kemLibEx.kem_new "Alg2").isSome) ∧
    ((KEMs.is_KEM_enabled_oqs_cpp_h kemLibEx "Alg2").2 =
        (kemLibEx.kem_new "Alg2").toList) ∧
    (Sigs.is_sig_enabled sigLibEx "Alg2" =
        (sigLibEx.sig_new "Alg2").isSome) ∧
    ((Sigs.is_sig_enabled_oqs_cpp_h sigLibEx "Alg2").1 =
        (sigLibEx.sig_new "Alg2").isSome) ∧
    ((Sigs.is_sig_enabled_oqs_cpp_h sigLibEx "Alg2").2 =
        (sigLibEx.sig_new "Alg2").toList)) := by
  have hk : ∀ m, kemLibEx.alg_is_enabled m = (kemLibEx.kem_new m).isSome := by
    intro m
    by_cases hm : m = "Alg" <;> simp [kemLibEx, hm]
  have hs : ∀ m, sigLibEx.alg_is_enabled m = (sigLibEx.sig_new m).isSome := by
    intro m
    by_cases hm : m = "SigAlg" <;> simp [sigLibEx, hm]
  exact ⟨⟨hk, hs⟩, is_enabled_iff_trial_instantiation kemLibEx sigLibEx
    "Alg2" hk hs⟩

/-- C5: from every reachable memoization state, the enabled list is a subset
of the supported list, and each accessor returns the same canonical list on
every call (the supported list is always the native algorithm table, the
enabled list always its enabled filter), so neither list ever changes once
computed. -/
theorem enabled_subset_supported_stable (klib : KemLib) (kst : KEMsState)
    (slib : SigLib) (sst : SigsState)
    (hkr : KEMs.Reachable klib kst) (hsr : Sigs.Reachable slib sst) :
    (KEMs.get_enabled_KEMs klib kst).1 ⊆
      (KEMs.get_supported_KEMs klib kst).1 ∧
    (KEMs.get_supported_KEMs klib kst).1 = klib.alg_table ∧
    (KEMs.get_enabled_KEMs klib kst).1 =
      klib.alg_table.filter klib.alg_is_enabled ∧
    (Sigs.get_enabled_sigs slib sst).1 ⊆
      (Sigs.get_supported_sigs slib sst).1 ∧
    (Sigs.get_supported_sigs slib sst).1 = slib.alg_table ∧
    (Sigs.get_enabled_sigs slib sst).1 =
      slib.alg_table.filter slib.alg_is_enabled := by
  have hkinv := kems_reachable_inv klib kst hkr
  have hksup := (KEMs.get_supported_KEMs_inv klib kst hkinv).1
  have hken := (KEMs.get_enabled_KEMs_inv klib kst hkinv).1
  have hsinv := sigs_reachable_inv slib sst hsr
  have hssup := (Sigs.get_supported_sigs_inv slib sst hsinv).1
  have hsen := (Sigs.get_enabled_sigs_inv slib sst hsinv).1
  refine ⟨?_, hksup, hken, ?_, hssup, hsen⟩
  · rw [hksup, hken]
    exact fun x hx => (List.mem_filter.mp hx).1
  · rw [hssup, hsen]
    exact fun x hx => (List.mem_filter.mp hx).1

/-- C5 witness: the subset-and-stability theorem applied to the concrete
libraries in the initial memoization state. -/
theorem enabled_subset_supported_stable_witness :
    (KEMs.Reachable kemLibEx initKEMsState ∧
      Sigs.Reachable sigLibEx initSigsState) ∧
    ((KEMs.get_enabled_KEMs kemLibEx initKEMsState).1 ⊆
      (KEMs.get_supported_KEMs kemLibEx initKEMsState).1 ∧
    (KEMs.get_supported_KEMs kemLibEx initKEMsState).1 = kemLibEx.alg_table ∧
    (KEMs.get_enabled_KEMs kemLibEx initKEMsState).1 =
      kemLibEx.alg_table.filter kemLibEx.alg_is_enabled ∧
    (Sigs.get_enabled_sigs sigLibEx initSigsState).1 ⊆
      (Sigs.get_supported_sigs sigLibEx initSigsState).1 ∧
    (Sigs.get_supported_sigs sigLibEx initSigsState).1 = sigLibEx.alg_table ∧
    (Sigs.get_enabled_sigs sigLibEx initSigsState).1 =
      sigLibEx.alg_table.filter sigLibEx.alg_is_enabled) :=
  ⟨⟨KEMs.Reachable.init, Sigs.Reachable.init⟩,
    enabled_subset_supported_stable kemLibEx initKEMsState sigLibEx
      initSigsState KEMs.Reachable.init Sigs.Reachable.init⟩

/-- C6 counterexample: the older header's `Signature::verify` has no
signature-size check.  With the native verification reporting success, a
5-byte signature against a handle whose `max_length_signature` is 4 returns
`ok true` from the `oqs_cpp.h` variant instead of raising, while the
`oqs_cpp.hpp` variant raises the invalid-argument error. -/
theorem verify_sig_length_cex :
    ([0, 0, 0, 0, 0] : Bytes).length >
      sigHandleEx.alg_details.max_length_signature ∧
    (Signature.verify_oqs_cpp_h sigLibEx sigHandleEx [] [0, 0, 0, 0, 0]
      [0, 0]).1 = .ok true ∧
    (Signature.verify sigLibEx sigHandleEx [] [0, 0, 0, 0, 0] [0, 0]).1 =
      .error (.RuntimeError "Incorrect signature size") := by
  refine ⟨by decide, rfl, rfl⟩

/-- C6 (amended): the `oqs_cpp.hpp` `Signature::verify` raises the
invalid-argument errors exactly on a wrong-length public key or an over-long
signature and otherwise returns the boolean outcome of the native
verification (`false` for a cryptographic rejection, `true` exactly on native
success); the older header's variant validates only the public-key length and
otherwise returns the native boolean, with no signature-size check. -/
theorem verify_error_discipline (lib : SigLib) (h : Signature)
    (message signature public_key : Bytes) :
    ((Signature.verify lib h message signature public_key).1 = .ok true ↔
      public_key.length = h.alg_details.length_public_key ∧
        signature.length ≤ h.alg_details.max_length_signature ∧
        lib.verify (h.sig.getD default) message signature public_key =
          OQS_STATUS.OQS_SUCCESS) ∧
    ((Signature.verify lib h message signature public_key).1 = .ok false ↔
      public_key.length = h.alg_details.length_public_key ∧
        signature.length ≤ h.alg_details.max_length_signature ∧
        lib.verify (h.sig.getD default) message signature public_key ≠
          OQS_STATUS.OQS_SUCCESS) ∧
    ((Signature.verify lib h message signature public_key).1 =
        .error (.RuntimeError "Incorrect public key length") ↔
      public_key.length ≠ h.alg_details.length_public_key) ∧
    ((Signature.verify lib h message signature public_key).1 =
        .error (.RuntimeError "Incorrect signature size") ↔
      public_key.length = h.alg_details.length_public_key ∧
        signature.length > h.alg_details.max_length_signature) ∧
    ((Signature.verify_oqs_cpp_h lib h message signature public_key).1 =
        .error (.RuntimeError "Incorrect public key length") ↔
      public_key.length ≠ h.alg_details.length_public_key) ∧
    ((Signature.verify_oqs_cpp_h lib h message signature public_key).1 =
        .ok (decide (lib.verify (h.sig.getD default) message signature
          public_key = OQS_STATUS.OQS_SUCCESS)) ↔
      public_key.length = h.alg_details.length_public_key) := by
  by_cases hpk : public_key.length = h.alg_details.length_public_key
  · by_cases hsig : signature.length > h.alg_details.max_length_signature
    · refine ⟨?_, ?_, ?_, ?_, ?_, ?_⟩ <;>
        simp [Signature.verify, Signature.verify_oqs_cpp_h, hpk, hsig]
    · refine ⟨?_, ?_, ?_, ?_, ?_, ?_⟩ <;>
        simp [Signature.verify, Signature.verify_oqs_cpp_h, hpk, hsig]
      all_goals
        intro hv
        omega
  · refine ⟨?_, ?_, ?_, ?_, ?_, ?_⟩ <;>
      simp [Signature.verify, Signature.verify_oqs_cpp_h, hpk]

/-- C7 counterexample: `decap_secret` checks the ciphertext length before the
stored secret key, so a handle with an empty secret key called with a
wrong-length ciphertext throws the invalid-argument ciphertext error, whose
message is not the state error naming the missing secret key — refuting that
every decapsulation on a key-less handle fails with the InvalidStateError. -/
theorem decap_wrong_ciphertext_cex :
    ((([] : Bytes)).length ≠ kemHandleEx.alg_details.length_secret_key) ∧
    (([] : Bytes)).length ≠ kemHandleEx.alg_details.length_ciphertext ∧
    (KeyEncapsulation.decap_secret kemLibEx
        { kemHandleEx with secret_key := [] } []).1 =
      .error (.RuntimeError "Incorrect ciphertext length") ∧
    "Incorrect ciphertext length" ≠ secretKeyLengthMsg := by
  refine ⟨by decide, by decide, rfl, by decide⟩

/-- C7 (amended): a handle whose secret key does not have length
`length_secret_key` can still perform the public-key-only operations —
encapsulation and verification never read the secret-key field — and signing
always fails with the runtime error naming the missing secret-key
precondition, as does decapsulation whenever the supplied ciphertext is
well-formed; a wrong-length ciphertext instead takes the invalid-argument
ciphertext error first, since the ciphertext check precedes the secret-key
check.  The state-error message is distinct from every argument-validation
message. -/
theorem missing_secret_key_discipline (klib : KemLib) (slib : SigLib)
    (hk : KeyEncapsulation) (hs : Signature) (ct msg m s pk : Bytes)
    (sk1 sk2 : Bytes)
    (hkbad : hk.secret_key.length ≠ hk.alg_details.length_secret_key)
    (hsbad : hs.secret_key.length ≠ hs.alg_details.length_secret_key)
    (hct : ct.length = hk.alg_details.length_ciphertext) :
    (KeyEncapsulation.decap_secret klib hk ct).1 =
      .error (.RuntimeError secretKeyLengthMsg) ∧
    (Signature.sign slib hs msg).1 =
      .error (.RuntimeError secretKeyLengthMsg) ∧
    secretKeyLengthMsg ≠ "Incorrect ciphertext length" ∧
    secretKeyLengthMsg ≠ "Incorrect public key length" ∧
    secretKeyLengthMsg ≠ "Incorrect signature size" ∧
    (KeyEncapsulation.encap_secret klib { hk with secret_key := sk1 } pk).1 =
      (KeyEncapsulation.encap_secret klib { hk with secret_key := sk2 } pk).1 ∧
    (Signature.verify slib { hs with secret_key := sk1 } m s pk).1 =
      (Signature.verify slib { hs with secret_key := sk2 } m s pk).1 := by
  refine ⟨?_, ?_, by decide, by decide, by decide, ?_, ?_⟩
  · simp [KeyEncapsulation.decap_secret, hct, hkbad]
  · simp [Signature.sign, hsbad]
  · simp [KeyEncapsulation.encap_secret]
    split
    · split <;> rfl
    · rfl
  · simp [Signature.verify]
    split
    · split <;> rfl
    · rfl

/-- C7 witness: the discipline theorem applied to handles with empty secret
keys, a well-formed ciphertext, and concrete other inputs. -/
theorem missing_secret_key_discipline_witness :
    ((kemHandleEx.secret_key.take 0).length ≠
        kemHandleEx.alg_details.length_secret_key ∧
      (sigHandleEx.secret_key.take 0).length ≠
        sigHandleEx.alg_details.length_secret_key ∧
      ([0, 0, 0, 0] : Bytes).length =
        kemHandleEx.alg_details.length_ciphertext) ∧
    ((KeyEncapsulation.decap_secret kemLibEx
        { kemHandleEx with secret_key := kemHandleEx.secret_key.take 0 }
        [0, 0, 0, 0]).1 = .error (.RuntimeError secretKeyLengthMsg) ∧
    (Signature.sign sigLibEx
        { sigHandleEx with secret_key := sigHandleEx.secret_key.take 0 }
        []).1 = .error (.RuntimeError secretKeyLengthMsg) ∧
    secretKeyLengthMsg ≠ "Incorrect ciphertext length" ∧
    secretKeyLengthMsg ≠ "Incorrect public key length" ∧
    secretKeyLengthMsg ≠ "Incorrect signature size" ∧
    (KeyEncapsulation.encap_secret kemLibEx
        { { kemHandleEx with secret_key := kemHandleEx.secret_key.take 0 }
          with secret_key := [1] } [0, 0]).1 =
      (KeyEncapsulation.encap_secret kemLibEx
        { { kemHandleEx with secret_key := kemHandleEx.secret_key.take 0 }
          with secret_key := [2] } [0, 0]).1 ∧
    (Signature.verify sigLibEx
        { { sigHandleEx with secret_key := sigHandleEx.secret_key.take 0 }
          with secret_key := [1] } [] [] [0, 0]).1 =
      (Signature.verify sigLibEx
        { { sigHandleEx with secret_key := sigHandleEx.secret_key.take 0 }
          with secret_key := [2] } [] [] [0, 0]).1) :=
  ⟨⟨by decide, by decide, by decide⟩,
    missing_secret_key_discipline kemLibEx sigLibEx
      { kemHandleEx with secret_key := kemHandleEx.secret_key.take 0 }
      { sigHandleEx with secret_key := sigHandleEx.secret_key.take 0 }
      [0, 0, 0, 0] [] [] [] [0, 0] [1] [2]
      (by decide) (by decide) (by decide)⟩

/-- C8: `encap_secret` raises the invalid-argument error for the public key
exactly when the supplied public key's length differs from
`length_public_key`, and `decap_secret` raises the invalid-argument error for
the ciphertext exactly when the supplied ciphertext's length differs from
`length_ciphertext`; a wrong-length input always takes the validation throw,
never silent truncation or padding. -/
theorem wrong_length_raises_invalid_argument (klib : KemLib)
    (hk : KeyEncapsulation) (pk ct : Bytes) :
    ((KeyEncapsulation.encap_secret klib hk pk).1 =
        .error (.RuntimeError "Incorrect public key length") ↔
      pk.length ≠ hk.alg_details.length_public_key) ∧
    ((KeyEncapsulation.decap_secret klib hk ct).1 =
        .error (.RuntimeError "Incorrect ciphertext length") ↔
      ct.length ≠ hk.alg_details.length_ciphertext) := by
  constructor
  · by_cases hpk : pk.length = hk.alg_details.length_public_key
    · simp only [KeyEncapsulation.encap_secret]
      rw [if_neg (not_not_intro hpk)]
      split <;> simp [hpk]
    · simp [KeyEncapsulation.encap_secret, hpk]
  · by_cases hct : ct.length = hk.alg_details.length_ciphertext
    · simp only [KeyEncapsulation.decap_secret]
      rw [if_neg (not_not_intro hct)]
      split
      · simp [hct, secretKeyLengthMsg]
      · split <;> simp [hct]
    · simp [KeyEncapsulation.decap_secret, hct]

/-- The native sign invocation `Signature::sign` performs: the primitive
applied to the handle's context, a zero signature buffer of
`max_length_signature` bytes, the message, and the stored secret key. -/
def signNativeCall (lib : SigLib) (h : Signature) (message : Bytes) :
    OQS_STATUS × Bytes × Nat :=
  lib.sign (h.sig.getD default)
    (List.replicate h.alg_details.max_length_signature 0) message h.secret_key

/-- C9: when the handle holds a correctly sized secret key and the native
sign primitive succeeds, reports a written length within
`max_length_signature`, and (as the C interface guarantees) leaves the
caller's buffer at its allocated length, `sign` returns exactly the reported
prefix of the buffer the native primitive wrote: the result's length equals
the reported length, which is at most `max_length_signature` — trimmed, not
padded. -/
theorem sign_trims_to_reported_length (slib : SigLib) (hs : Signature)
    (msg : Bytes)
    (hsk : hs.secret_key.length = hs.alg_details.length_secret_key)
    (hst : (signNativeCall slib hs msg).1 = OQS_STATUS.OQS_SUCCESS)
    (hbuf : (signNativeCall slib hs msg).2.1.length =
      hs.alg_details.max_length_signature)
    (hlen : (signNativeCall slib hs msg).2.2 ≤
      hs.alg_details.max_length_signature) :
    (Signature.sign slib hs msg).1 =
      .ok ((signNativeCall slib hs msg).2.1.take
        (signNativeCall slib hs msg).2.2) ∧
    ((signNativeCall slib hs msg).2.1.take
        (signNativeCall slib hs msg).2.2).length =
      (signNativeCall slib hs msg).2.2 ∧
    (signNativeCall slib hs msg).2.2 ≤
      hs.alg_details.max_length_signature := by
  have hr : (signNativeCall slib hs msg).2.2 ≤
      (signNativeCall slib hs msg).2.1.length := by
    rw [hbuf]
    exact hlen
  refine ⟨?_, ?_, hlen⟩
  · simp only [Signature.sign]
    rw [if_neg (not_not_intro hsk)]
    simp only [signNativeCall] at hst hr ⊢
    simp [hst, vectorResize, hr]
  · simp [List.length_take]
    omega

/-- C9 witness: the trimming theorem applied to the concrete signature
library, whose native sign primitive reports a written length of 2 out of the
4-byte buffer. -/
theorem sign_trims_to_reported_length_witness :
    (sigHandleEx.secret_key.length =
        sigHandleEx.alg_details.length_secret_key ∧
      (signNativeCall sigLibEx sigHandleEx []).1 = OQS_STATUS.OQS_SUCCESS ∧
      (signNativeCall sigLibEx sigHandleEx []).2.1.length =
        sigHandleEx.alg_details.max_length_signature ∧
      (signNativeCall sigLibEx sigHandleEx []).2.2 ≤
        sigHandleEx.alg_details.max_length_signature) ∧
    ((Signature.sign sigLibEx sigHandleEx []).1 =
      .ok ((signNativeCall sigLibEx sigHandleEx []).2.1.take
        ((signNativeCall sigLibEx sigHandleEx []).2.2)) ∧
    ((signNativeCall sigLibEx sigHandleEx []).2.1.take
        ((signNativeCall sigLibEx sigHandleEx []).2.2)).length =
      (signNativeCall sigLibEx sigHandleEx []).2.2 ∧
    (signNativeCall sigLibEx sigHandleEx []).2.2 ≤
      sigHandleEx.alg_details.max_length_signature) :=
  ⟨⟨by decide, by decide, by decide, by decide⟩,
    sign_trims_to_reported_length sigLibEx sigHandleEx []
      (by decide) (by decide) (by decide) (by decide)⟩

/-- C10: the const member operations — encapsulation, decapsulation, signing,
verification (both header generations), and secret-key export — leave the
handle unchanged on every path, returning normally or throwing: the details,
secret-key bytes, and native context pointer are identical afterwards (the
source declares every one of these member functions `const`). -/
theorem const_operations_frame (klib : KemLib) (slib : SigLib)
    (hk : KeyEncapsulation) (hs : Signature) (pk ct msg s m : Bytes) :
    (KeyEncapsulation.encap_secret klib hk pk).2 = hk ∧
    (KeyEncapsulation.decap_secret klib hk ct).2 = hk ∧
    (KeyEncapsulation.export_secret_key hk).2 = hk ∧
    (Signature.sign slib hs msg).2 = hs ∧
    (Signature.verify slib hs m s pk).2 = hs ∧
    (Signature.verify_oqs_cpp_h slib hs m s pk).2 = hs ∧
    (Signature.export_secret_key hs).2 = hs := by
  refine ⟨?_, ?_, rfl, ?_, ?_, ?_, rfl⟩
  · simp only [KeyEncapsulation.encap_secret]
    split
    · rfl
    · split <;> rfl
  · simp only [KeyEncapsulation.decap_secret]
    split
    · rfl
    · split
      · rfl
      · split <;> rfl
  · simp only [Signature.sign]
    split
    · rfl
    · split <;> rfl
  · simp only [Signature.verify]
    split
    · rfl
    · split <;> rfl
  · simp only [Signature.verify_oqs_cpp_h]
    split <;> rfl

end LibOqsCpp
